import Mathlib

/-!
Shallow embedding of the `respect` comparison engine (package `respect`,
file `respect.go`) together with its entry point `Respect` and option flags
(`respect_option.go`).

Modelling conventions:
- A Go runtime value is modelled by the inductive `GoVal`.  A `reflect.Value`
  that is invalid (`!v.IsValid()`, e.g. the element of a nil pointer) is
  modelled as `none : Option GoVal`.
- A Go type is modelled by `TypeId` carrying the result of
  `reflect.Type.String()` (`str`), `Name()` (`name`) and `PkgPath()`
  (`pkgPath`).  Equality of `TypeId` models Go type identity; distinct Go
  types are given distinct `TypeId`s by the modeller (for unnamed types the
  `str` field distinguishes them).
- Slice and map values carry an `addr : Nat` modelling the result of
  `reflect.Value.Pointer()`, used by the engine for its identical-backing
  short circuit; nil slices/maps are built with `addr = 0` and no elements.
- Interface-kind values are not modelled separately: `reflect.ValueOf` at the
  top level already yields the dynamic value, and interface-typed members are
  represented directly by their dynamic value.  Struct types with a custom
  `Equal` method (the `time.Time` special case) and error-interface values
  are outside the modelled universe, so `MethodByName("Equal")` is modelled
  as invalid.
- Go machine floats are modelled as rationals; the `%.10f` fixed-point
  rendering used for comparison is `fmtFixed`, and the `%v` rendering of a
  raw float is `renderFloat`.
- Map keys are modelled as strings (the comparison logic only needs key
  lookup and the `map[%v]` path rendering).
-/

namespace respect

/-- Go type identity data: `reflect.Type.String()`, `Name()` and `PkgPath()`. -/
structure TypeId where
  str : String
  name : String
  pkgPath : String
deriving DecidableEq

/-- A Go runtime value, as seen through the reflection accessors the engine
uses.  Struct fields are `(name, exported, value)` triples in declaration
order (`exported` models `Type().Field(i).PkgPath == ""`). -/
inductive GoVal where
  | vBool (t : TypeId) (b : Bool)
  | vInt (t : TypeId) (i : Int)
  | vUint (t : TypeId) (u : Nat)
  | vFloat (t : TypeId) (q : ℚ)
  | vString (t : TypeId) (s : String)
  | vStruct (t : TypeId) (fields : List (String × Bool × GoVal))
  | vPtr (t : TypeId) (pointee : Option GoVal)
  | vSlice (t : TypeId) (addr : Nat) (nil : Bool) (elems : List GoVal)
  | vArray (t : TypeId) (elems : List GoVal)
  | vMap (t : TypeId) (addr : Nat) (nil : Bool) (entries : List (String × GoVal))

/-- MaxDiff specifies the maximum number of differences to return
(`respect.go`). -/
def MaxDiff : Nat := 10

/-- FloatPrecision is the number of decimal places to round float values to
when comparing (`respect.go`). -/
def FloatPrecision : Nat := 10

/-- Options bit-flag type (`respect_option.go`). -/
abbrev Options := Nat

/-- OrderMatters option bit (`respect_option.go`, `1 << iota`). -/
def OrderMatters : Options := 1

/-- LengthMatters option bit (`respect_option.go`). -/
def LengthMatters : Options := 2

/-- Modelled from the spec: the exact zero-value policy bit
`ZeroValueMatters` is read by the comparator (`respect.go` line 126) and used
by the repository tests, but its constant declaration is not among the source
files; the spec (§9, glossary) documents it as the third opt-in policy flag,
so it is modelled as the next option bit after `OrderMatters` and
`LengthMatters`. -/
def ZeroValueMatters : Options := 4

/-- The comparison context `cmp` of `respect.go` (the derived `floatFormat`
string is the constant `"%.10f"`, realised here by `fmtFixed FloatPrecision`). -/
structure Cmp where
  diff : List String
  buff : List String
  options : Options
deriving DecidableEq

/-- `cmp.push`. -/
def push (c : Cmp) (name : String) : Cmp :=
  { c with buff := c.buff ++ [name] }

/-- `cmp.pop`. -/
def pop (c : Cmp) : Cmp :=
  if c.buff.length > 0 then { c with buff := c.buff.dropLast } else c

/-- The message actually appended by `cmp.save`: the dot-joined path prefix
(omitted when the path stack is empty) followed by the message. -/
def renderEntry (buff : List String) (msg : String) : String :=
  if buff.length > 0 then String.intercalate "." buff ++ ": " ++ msg else msg

/-- `cmp.save`. -/
def save (c : Cmp) (msg : String) : Cmp :=
  { c with diff := c.diff ++ [renderEntry c.buff msg] }

/-- The underscore-suffixed diff writer of `respect.go` (`saveDiff_`):
formats `"%v %v %v"` of value, operator, value. -/
def saveDiffOp (c : Cmp) (aval bval operator : String) : Cmp :=
  save c (aval ++ " " ++ operator ++ " " ++ bval)

/-- `cmp.saveDiff`. -/
def saveDiff (c : Cmp) (aval bval : String) : Cmp :=
  saveDiffOp c aval bval "!="

/-- The `TypeId` of a value (`reflect.Value.Type()`). -/
def goTypeOf : GoVal → TypeId
  | .vBool t _ => t
  | .vInt t _ => t
  | .vUint t _ => t
  | .vFloat t _ => t
  | .vString t _ => t
  | .vStruct t _ => t
  | .vPtr t _ => t
  | .vSlice t _ _ _ => t
  | .vArray t _ => t
  | .vMap t _ _ _ => t

mutual
/-- `reflect.Value.IsZero`: scalars compare against their zero value,
pointers/slices/maps are zero when nil, structs and arrays when all members
(including unexported fields) are zero. -/
def isZero : GoVal → Bool
  | .vBool _ b => b = false
  | .vInt _ i => i = 0
  | .vUint _ u => u = 0
  | .vFloat _ q => q = 0
  | .vString _ s => s = ""
  | .vStruct _ fields => isZeroFields fields
  | .vPtr _ p => p.isNone
  | .vSlice _ _ n _ => n
  | .vArray _ elems => isZeroElems elems
  | .vMap _ _ n _ => n

/-- All struct fields zero (helper of `isZero`). -/
def isZeroFields : List (String × Bool × GoVal) → Bool
  | [] => true
  | (_, _, v) :: rest => isZero v && isZeroFields rest

/-- All array elements zero (helper of `isZero`). -/
def isZeroElems : List GoVal → Bool
  | [] => true
  | v :: rest => isZero v && isZeroElems rest
end

/-- Number rendering helper: least `k` with `den ∣ 10 ^ k`, for printing
terminating decimals. -/
def decExp (den : Nat) : Option Nat :=
  (List.range 40).find? (fun k => decide (den ∣ 10 ^ k))

/-- Left-pad a digit string with zeros to the given width. -/
def padZeros (s : String) (width : Nat) : String :=
  String.mk (List.replicate (width - s.length) '0') ++ s

/-- Drop trailing zeros of a digit string, keeping at least one digit. -/
def trimTrailingZeros (s : String) : String :=
  let l := (s.data.reverse.dropWhile (fun ch => ch = '0')).reverse
  if l.isEmpty then "0" else String.mk l

/-- Model of the `%v` rendering of a raw float (shortest decimal form for
terminating decimals; integral floats print with no decimal point, as in Go). -/
def renderFloat (q : ℚ) : String :=
  match decExp q.den with
  | some 0 => toString q.num
  | some (k + 1) =>
      let sign := if q.num < 0 then "-" else ""
      let m := 10 ^ (k + 1)
      let n := q.num.natAbs * (m / q.den)
      sign ++ toString (n / m) ++ "." ++ trimTrailingZeros (padZeros (toString (n % m)) (k + 1))
  | none => toString q.num ++ "/" ++ toString q.den

/-- Model of `fmt.Sprintf("%.<prec>f", x)`: sign, integer part, point, and
exactly `prec` fraction digits; `scaled` is the magnitude scaled by
`10 ^ prec` and rounded to the nearest integer (the floor of the scaled
magnitude plus one half, computed on numerator and denominator). -/
def fmtFixed (prec : Nat) (q : ℚ) : String :=
  let sign := if q.num < 0 then "-" else ""
  let m := 10 ^ prec
  let scaled := (2 * q.num.natAbs * m + q.den) / (2 * q.den)
  sign ++ toString (scaled / m) ++ "." ++ padZeros (toString (scaled % m)) prec

mutual
/-- Model of the `%v` rendering of a value (used when a whole value appears
inside a diagnostic). -/
def goString : GoVal → String
  | .vBool _ b => if b then "true" else "false"
  | .vInt _ i => toString i
  | .vUint _ u => toString u
  | .vFloat _ q => renderFloat q
  | .vString _ s => s
  | .vStruct _ fields => "\x7b" ++ goStringFields fields ++ "\x7d"
  | .vPtr _ none => "<nil>"
  | .vPtr _ (some p) => "&" ++ goString p
  | .vSlice _ _ _ elems => "[" ++ goStringElems elems ++ "]"
  | .vArray _ elems => "[" ++ goStringElems elems ++ "]"
  | .vMap _ _ _ entries => "map[" ++ goStringEntries entries ++ "]"

/-- Space-separated field values (helper of `goString`). -/
def goStringFields : List (String × Bool × GoVal) → String
  | [] => ""
  | [(_, _, v)] => goString v
  | (_, _, v) :: rest => goString v ++ " " ++ goStringFields rest

/-- Space-separated elements (helper of `goString`). -/
def goStringElems : List GoVal → String
  | [] => ""
  | [v] => goString v
  | v :: rest => goString v ++ " " ++ goStringElems rest

/-- Space-separated `key:value` pairs (helper of `goString`). -/
def goStringEntries : List (String × GoVal) → String
  | [] => ""
  | [(k, v)] => k ++ ":" ++ goString v
  | (k, v) :: rest => k ++ ":" ++ goString v ++ " " ++ goStringEntries rest
end

/-- `valueType` of `respect.go`: dereference a pointer (or interface) value
once; a nil pointerʼs element is the invalid value. -/
def valueType : Option GoVal → Option GoVal
  | some (.vPtr _ p) => p
  | v => v

/-- `reflect.Value.String()`: the string itself for string-kind values,
`"<invalid Value>"` for invalid values, and `"<T Value>"` otherwise. -/
def valueString : Option GoVal → String
  | none => "<invalid Value>"
  | some (.vString _ s) => s
  | some v => "<" ++ (goTypeOf v).str ++ " Value>"

/-- `reflect.Value.FieldByName` restricted to a struct field list (invalid
when absent). -/
def fieldByName : List (String × Bool × GoVal) → String → Option GoVal
  | [], _ => none
  | (n, _, v) :: rest, name => if n = name then some v else fieldByName rest name

/-- `reflect.Value.MapIndex` on the modelled (string-keyed) map entries. -/
def lookupEntry : List (String × GoVal) → String → Option GoVal
  | [], _ => none
  | (k, v) :: rest, key => if k = key then some v else lookupEntry rest key

/-- `v.FieldByName(fn)` applied through the model (`none` when `v` is not a
struct, where Go would panic — unreachable in well-formed comparisons). -/
def fieldOfValue : Option GoVal → String → Option GoVal
  | some (.vStruct _ fields), fn => fieldByName fields fn
  | _, _ => none

/-- `structHash` of `respect.go`: join, with `"-"`, the
`valueType(v.FieldByName(fn)).String()` of every identifier field name. -/
def structHashOf (v : Option GoVal) (fieldNames : List String) : String :=
  String.intercalate "-" (fieldNames.map (fun fn => valueString (valueType (fieldOfValue v fn))))

/-- Whether a (dereferenced) value has string kind, as tested by the
identifier-field scan of `respectSliceIgnoreOrder`. -/
def isStringKind : Option GoVal → Bool
  | some (.vString _ _) => true
  | _ => false

/-- The identifier field names of `respectSliceIgnoreOrder`: every field of
the first expected element (exported or not) that is valid, non-zero, and of
string kind after dereferencing. -/
def identFieldNames : List (String × Bool × GoVal) → List String
  | [] => []
  | (n, _, v) :: rest =>
      if isZero v = false ∧ isStringKind (valueType (some v)) = true then
        n :: identFieldNames rest
      else identFieldNames rest

/-- The inner scan of the unordered struct match: first actual element whose
`structHash` equals the expected hash. -/
def findHashMatch (oElems : List GoVal) (fieldNames : List String) (h : String) : Option GoVal :=
  match oElems with
  | [] => none
  | o :: rest =>
      if structHashOf (valueType (some o)) fieldNames = h then some o
      else findHashMatch rest fieldNames h

/-- The inner scan of the unordered string match: index of the first actual
element, not yet consumed (`dirtyObjIndex`), whose `String()` equals `s`.
The integer-slice membership helper `contains` used by the source is
modelled as list membership. -/
def findStringIdx (oElems : List GoVal) (s : String) (dirty : List Nat) (j : Nat) : Option Nat :=
  match oElems with
  | [] => none
  | o :: rest =>
      if dirty.contains j then findStringIdx rest s dirty (j + 1)
      else if valueString (some o) = s then some j
      else findStringIdx rest s dirty (j + 1)

/-- The string branch of `cmp.respectSliceIgnoreOrder`: multiset containment
with consumption of matched actual elements; unmatched expected strings each
record an `item`-labelled not-found diagnostic (note: no `MaxDiff` check in
this loop, mirroring the source). -/
def stringsUnordered (c : Cmp) (oElems rElems : List GoVal) (dirty : List Nat) : Cmp :=
  match rElems with
  | [] => c
  | rElem :: rest =>
      match findStringIdx oElems (valueString (some rElem)) dirty 0 with
      | some j => stringsUnordered c oElems rest (dirty ++ [j])
      | none =>
          let c1 := pop (saveDiff (push c "item") "<not found>" (valueString (some rElem)))
          stringsUnordered c1 oElems rest dirty

mutual
/-- `cmp.respect` of `respect.go`.  The first argument pair models
`(objVal, respectObjVal)`; an invalid `objVal` is `none` (an invalid
`respectObjVal` returns immediately in the source and is handled by the
callers/wrapper before this function).  The struct branch of
`cmp.respectSliceIgnoreOrder` and its dispatch are inlined at the slice case
(the string branch is `stringsUnordered` above). -/
def respectF (c : Cmp) (objVal : Option GoVal) (respectObjVal : GoVal) (level : Nat) : Cmp :=
  match objVal with
  | none => saveDiff c "<nil pointer>" (goTypeOf respectObjVal).str
  | some ov =>
    let objType := goTypeOf ov
    let respectObjType := goTypeOf respectObjVal
    if objType ≠ respectObjType then
      let c1 := push c "<type>"
      let c2 :=
        if respectObjType.name = "" ∨ respectObjType.name ≠ objType.name then
          saveDiff c1 objType.str respectObjType.str
        else
          saveDiff c1 (objType.pkgPath ++ "." ++ objType.name)
            (respectObjType.pkgPath ++ "." ++ respectObjType.name)
      pop c2
    else if c.options &&& ZeroValueMatters = 0 ∧ isZero respectObjVal = true then c
    else
      match respectObjVal with
      | .vStruct _ rvFields =>
          match ov with
          | .vStruct _ objFields => respectStructLoop c objFields rvFields level
          | _ => c
      | .vMap rt raddr rnil rEntries =>
          match ov with
          | .vMap _ oaddr onil oEntries =>
              if rnil = false ∧ rEntries.length ≠ 0 then
                let c1 :=
                  if onil = true then
                    saveDiff c "<nil map>" (goString (.vMap rt raddr rnil rEntries))
                  else c
                if oaddr = raddr then c1
                else respectMapLoop c1 oEntries rEntries level
              else c
          | _ => c
      | .vArray _ rElems =>
          match ov with
          | .vArray _ oElems => respectArrayLoop c oElems rElems 0 level
          | _ => c
      | .vSlice rt raddr rnil rElems =>
          match ov with
          | .vSlice _ oaddr onil oElems =>
              if rnil = false ∧ rElems.length ≠ 0 then
                let c1 :=
                  if onil = true then
                    saveDiff c "<nil slice>" (goString (.vSlice rt raddr rnil rElems))
                  else c
                let objLen := oElems.length
                let respectObjLen := rElems.length
                if objLen = respectObjLen ∧ oaddr = raddr then c1
                else if objLen = respectObjLen ∧ respectObjLen = 0 then c1
                else if objLen < respectObjLen then
                  pop (saveDiffOp (push c1 "<len>") (toString objLen) (toString respectObjLen) "<")
                else
                  let c2 :=
                    if objLen ≠ respectObjLen ∧ c1.options &&& LengthMatters ≠ 0 then
                      pop (saveDiffOp (push c1 "<len>") (toString objLen) (toString respectObjLen) ">")
                    else c1
                  if c2.options &&& OrderMatters ≠ 0 ∨ (respectObjLen ≤ 1 ∧ objLen = 1) then
                    respectSliceLoop c2 oElems rElems 0 level
                  else
                    match valueType rElems.head? with
                    | some (.vStruct _ r0Fields) =>
                        let fieldNames := identFieldNames r0Fields
                        if fieldNames.length = 0 then
                          save c2 "<non valid field identifier was found>"
                        else
                          unorderedStructLoop c2 oElems rElems fieldNames 0 level
                    | some (.vString _ _) => stringsUnordered c2 oElems rElems []
                    | _ => c2
              else c
          | _ => c
      | .vPtr _ rp =>
          match rp with
          | none => c
          | some rpv =>
              match ov with
              | .vPtr _ op => respectF c op rpv (level + 1)
              | _ => c
      | .vFloat _ bq =>
          match ov with
          | .vFloat _ aq =>
              if fmtFixed FloatPrecision aq ≠ fmtFixed FloatPrecision bq then
                saveDiff c (renderFloat aq) (renderFloat bq)
              else c
          | _ => c
      | .vBool _ bb =>
          match ov with
          | .vBool _ ab =>
              if ab ≠ bb then
                saveDiff c (if ab then "true" else "false") (if bb then "true" else "false")
              else c
          | _ => c
      | .vInt _ bi =>
          match ov with
          | .vInt _ ai => if ai ≠ bi then saveDiff c (toString ai) (toString bi) else c
          | _ => c
      | .vUint _ bu =>
          match ov with
          | .vUint _ au => if au ≠ bu then saveDiff c (toString au) (toString bu) else c
          | _ => c
      | .vString _ sb =>
          match ov with
          | .vString _ sa => if sa ≠ sb then saveDiff c sa sb else c
          | _ => c
termination_by structural respectObjVal

/-- The struct-field loop of `cmp.respect` (skip unexported fields, push the
field name, recurse on `FieldByName`, pop, stop once `MaxDiff` is reached). -/
def respectStructLoop (c : Cmp) (objFields rvFields : List (String × Bool × GoVal)) (level : Nat) : Cmp :=
  match rvFields with
  | [] => c
  | (fieldName, exported, rvF) :: rest =>
      if exported = false then respectStructLoop c objFields rest level
      else
        let c1 := push c fieldName
        let c2 := respectF c1 (fieldByName objFields fieldName) rvF (level + 1)
        let c3 := pop c2
        if MaxDiff ≤ c3.diff.length then c3
        else respectStructLoop c3 objFields rest level
termination_by structural rvFields

/-- The map-key loop of `cmp.respect` (for each expected key: push the key
segment, recurse when the actual map has the key, else record
`<does not have key>`; stop once `MaxDiff` is reached). -/
def respectMapLoop (c : Cmp) (oEntries rEntries : List (String × GoVal)) (level : Nat) : Cmp :=
  match rEntries with
  | [] => c
  | (key, bVal) :: rest =>
      let c1 := push c ("map[" ++ key ++ "]")
      let c2 :=
        match lookupEntry oEntries key with
        | some aVal => respectF c1 (some aVal) bVal (level + 1)
        | none => saveDiff c1 "<does not have key>" (goString bVal)
      let c3 := pop c2
      if MaxDiff ≤ c3.diff.length then c3
      else respectMapLoop c3 oEntries rest level
termination_by structural rEntries

/-- The array-index loop of `cmp.respect`. -/
def respectArrayLoop (c : Cmp) (oElems rElems : List GoVal) (i : Nat) (level : Nat) : Cmp :=
  match rElems with
  | [] => c
  | r :: rest =>
      let c1 := push c ("array[" ++ toString i ++ "]")
      let c2 := respectF c1 (oElems[i]?) r (level + 1)
      let c3 := pop c2
      if MaxDiff ≤ c3.diff.length then c3
      else respectArrayLoop c3 oElems rest (i + 1) level
termination_by structural rElems

/-- The positional slice loop of `cmp.respect` (used when `OrderMatters` is
set or both sides are essentially single-element). -/
def respectSliceLoop (c : Cmp) (oElems rElems : List GoVal) (i : Nat) (level : Nat) : Cmp :=
  match rElems with
  | [] => c
  | r :: rest =>
      let c1 := push c ("[" ++ toString i ++ "]")
      let c2 := respectF c1 (oElems[i]?) r (level + 1)
      let c3 := pop c2
      if MaxDiff ≤ c3.diff.length then c3
      else respectSliceLoop c3 oElems rest (i + 1) level
termination_by structural rElems

/-- The struct branch loop of `cmp.respectSliceIgnoreOrder`: for each
expected element, find the first actual element with the same identifier hash
(matched elements are not consumed) and recurse on it, or record a not-found
diagnostic naming the hash.  As in the source, the `MaxDiff` break happens
before the index segment is popped. -/
def unorderedStructLoop (c : Cmp) (oElems rElems : List GoVal) (fieldNames : List String) (i : Nat) (level : Nat) : Cmp :=
  match rElems with
  | [] => c
  | rElem :: rest =>
      let c1 := push c ("[" ++ toString i ++ "]")
      let respectHash := structHashOf (valueType (some rElem)) fieldNames
      let c2 :=
        match findHashMatch oElems fieldNames respectHash with
        | some oElem => respectF c1 (some oElem) rElem (level + 1)
        | none =>
            pop (saveDiff (push c1 (String.intercalate "-" fieldNames)) "<not found>" respectHash)
      if MaxDiff ≤ c2.diff.length then c2
      else unorderedStructLoop (pop c2) oElems rest fieldNames (i + 1) level
termination_by structural rElems
end

/-- The entry point `Respect` of `respect.go`: fold the option flags, handle
top-level nil on either side without entering the recursive comparator, and
otherwise return the recorded difference list (`nil` and the empty list are
both modelled as `[]`). -/
def Respect (obj respectObj : Option GoVal) (respectOptions : List Options) : List String :=
  let options := respectOptions.foldl (fun a b => a ||| b) 0
  let c : Cmp := { diff := [], buff := [], options := options }
  match obj, respectObj with
  | none, none => []
  | none, some r => (saveDiff c "<nil pointer>" (goString r)).diff
  | some o, none => (saveDiff c (goString o) "<nil pointer>").diff
  | some o, some r => (respectF c (some o) r 0).diff

/-- The message recorded by the type-mismatch branch of `cmp.respect`: short
type names, or the package-qualified names when the short names collide and
are non-empty. -/
def typeMismatchMsg (objType respectObjType : TypeId) : String :=
  if respectObjType.name = "" ∨ respectObjType.name ≠ objType.name then
    objType.str ++ " != " ++ respectObjType.str
  else
    (objType.pkgPath ++ "." ++ objType.name) ++ " != " ++
      (respectObjType.pkgPath ++ "." ++ respectObjType.name)

/-- The element-correlation phase of the slice case of `cmp.respect` (the
code that runs after the nil/length checks): a named copy of the dispatch
inlined in `respectF`, used to state that length complaints are non-fatal. -/
def sliceElementPhase (c : Cmp) (oElems rElems : List GoVal) (level : Nat) : Cmp :=
  if c.options &&& OrderMatters ≠ 0 ∨ (rElems.length ≤ 1 ∧ oElems.length = 1) then
    respectSliceLoop c oElems rElems 0 level
  else
    match valueType rElems.head? with
    | some (.vStruct _ r0Fields) =>
        let fieldNames := identFieldNames r0Fields
        if fieldNames.length = 0 then
          save c "<non valid field identifier was found>"
        else
          unorderedStructLoop c oElems rElems fieldNames 0 level
    | some (.vString _ _) => stringsUnordered c oElems rElems []
    | _ => c

/-- Well-formedness of a modelled value: struct field names are distinct
within each struct (as Go guarantees) and members are recursively
well-formed.  `FieldByName` then returns the declared field value. -/
inductive WfVal : GoVal → Prop where
  | bool (t : TypeId) (b : Bool) : WfVal (.vBool t b)
  | int (t : TypeId) (i : Int) : WfVal (.vInt t i)
  | uint (t : TypeId) (u : Nat) : WfVal (.vUint t u)
  | float (t : TypeId) (q : ℚ) : WfVal (.vFloat t q)
  | str (t : TypeId) (s : String) : WfVal (.vString t s)
  | struct (t : TypeId) (fields : List (String × Bool × GoVal))
      (hnd : (fields.map (fun f => f.1)).Nodup)
      (hall : ∀ f ∈ fields, WfVal f.2.2) : WfVal (.vStruct t fields)
  | ptr (t : TypeId) (p : Option GoVal) (hall : ∀ v ∈ p, WfVal v) : WfVal (.vPtr t p)
  | slice (t : TypeId) (a : Nat) (n : Bool) (elems : List GoVal)
      (hall : ∀ e ∈ elems, WfVal e) : WfVal (.vSlice t a n elems)
  | array (t : TypeId) (elems : List GoVal)
      (hall : ∀ e ∈ elems, WfVal e) : WfVal (.vArray t elems)
  | map (t : TypeId) (a : Nat) (n : Bool) (entries : List (String × GoVal))
      (hall : ∀ kv ∈ entries, WfVal kv.2) : WfVal (.vMap t a n entries)

/-! Concrete fixtures used by witnesses and counterexamples. -/

/-- The built-in `string` type. -/
def stringT : TypeId := ⟨"string", "string", ""⟩

/-- The built-in `int` type. -/
def intT : TypeId := ⟨"int", "int", ""⟩

/-- The built-in `float64` type. -/
def f64T : TypeId := ⟨"float64", "float64", ""⟩

/-- The unnamed `[]string` type. -/
def strSliceT : TypeId := ⟨"[]string", "", ""⟩

/-- A two-field test struct type (string `Name`, int `Age`). -/
def personT : TypeId := ⟨"test.Person", "Person", "pkg/test"⟩

/-- Build a `personT` struct value. -/
def mkPerson (name : String) (age : Int) : GoVal :=
  .vStruct personT [("Name", true, .vString stringT name), ("Age", true, .vInt intT age)]

/-- Build a `[]string` value (non-nil) at a given address. -/
def mkStrSlice (addr : Nat) (xs : List String) : GoVal :=
  .vSlice strSliceT addr false (xs.map (fun s => .vString stringT s))

/-- The nil `[]string` value. -/
def nilStrSlice : GoVal := .vSlice strSliceT 0 true []

/-- A struct type whose only string field `Key` is exported, plus an int
field `Num`. -/
def itemT : TypeId := ⟨"test.Item", "Item", "pkg/test"⟩

/-- Build an `itemT` struct value. -/
def mkItem (k : String) (n : Int) : GoVal :=
  .vStruct itemT [("Key", true, .vString stringT k), ("Num", true, .vInt intT n)]

/-- The unnamed `[]test.Item` type. -/
def itemSliceT : TypeId := ⟨"[]test.Item", "", ""⟩

/-- A struct type whose only field is an unexported non-empty string. -/
def secretT : TypeId := ⟨"test.Secret", "Secret", "pkg/test"⟩

/-- Build a `secretT` struct value (its single field is unexported). -/
def mkSecret (s : String) : GoVal := .vStruct secretT [("name", false, .vString stringT s)]

/-- The unnamed `[]test.Secret` type. -/
def secretSliceT : TypeId := ⟨"[]test.Secret", "", ""⟩

/-- Same-named struct types from different packages (`pkg/v1.Error` and
`pkg/v2.Error`): `reflect.Type.String()` renders both as `"pkg.Error"`. -/
def errV1T : TypeId := ⟨"pkg.Error", "Error", "pkg/v1"⟩

/-- See `errV1T`. -/
def errV2T : TypeId := ⟨"pkg.Error", "Error", "pkg/v2"⟩

/-- An `errV1T` value with a single field. -/
def errV1Val : GoVal := .vStruct errV1T [("Code", true, .vInt intT 1)]

/-- An `errV2T` value with the same field values as `errV1Val`. -/
def errV2Val : GoVal := .vStruct errV2T [("Code", true, .vInt intT 1)]


/-- The unnamed `*string` type. -/
def strPtrT : TypeId := ⟨"*string", "", ""⟩

/-- The unnamed `map[string]string` type. -/
def strMapT : TypeId := ⟨"map[string]string", "", ""⟩

/-- A richer struct type exercising scalar, pointer, slice and map fields. -/
def richT : TypeId := ⟨"test.Rich", "Rich", "pkg/test"⟩

/-- A sample value of `richT` used to witness reflexivity. -/
def reflSample : GoVal :=
  .vStruct richT
    [("Name", true, .vString stringT "NeZha"),
     ("Age", true, .vInt intT 3),
     ("Desc", true, .vPtr strPtrT (some (.vString stringT "hi"))),
     ("Arms", true, .vSlice strSliceT 11 false [.vString stringT "left", .vString stringT "right"]),
     ("Memory", true, .vMap strMapT 12 false [("k", .vString stringT "v")])]

/-- A struct type with no string-kind field at all. -/
def numT : TypeId := ⟨"test.Num", "Num", "pkg/test"⟩

/-- Build a `numT` struct value. -/
def mkNum (n : Int) : GoVal := .vStruct numT [("Num", true, .vInt intT n)]

/-- Eleven pairwise different strings on each side: same lengths, no common
element, so the unordered string matcher records eleven diagnostics. -/
def c4Actual : GoVal :=
  mkStrSlice 1 ["x1", "x2", "x3", "x4", "x5", "x6", "x7", "x8", "x9", "x10", "x11"]

/-- See `c4Actual`. -/
def c4Expected : GoVal :=
  mkStrSlice 2 ["a1", "a2", "a3", "a4", "a5", "a6", "a7", "a8", "a9", "a10", "a11"]

/-- Actual side for the unexported-identifier scenario: the same two
`secretT` elements as the expected side, in swapped order. -/
def c6Actual : GoVal := .vSlice secretSliceT 1 false [mkSecret "b", mkSecret "a"]

/-- See `c6Actual`. -/
def c6Expected : GoVal := .vSlice secretSliceT 2 false [mkSecret "a", mkSecret "b"]

/-- Actual side for the not-found-identifier scenario. -/
def c6bActual : GoVal := .vSlice itemSliceT 5 false [mkItem "a" 1, mkItem "b" 2]

/-- Expected side whose second element has an identifier (`"c"`) matching no
actual element. -/
def c6bExpected : GoVal := .vSlice itemSliceT 6 false [mkItem "a" 1, mkItem "c" 3]

/-- Two struct elements with the same identifier `"k"` on each side; a
perfect pairing exists, but first-match correlation without consumption pairs
both expected elements with the first actual element. -/
def c10ItemsActual : GoVal := .vSlice itemSliceT 7 false [mkItem "k" 1, mkItem "k" 2]

/-- See `c10ItemsActual`. -/
def c10ItemsExpected : GoVal := .vSlice itemSliceT 8 false [mkItem "k" 1, mkItem "k" 2]

/-- String elements where the single `"a"` of the actual side would have to
be reused to satisfy both expected `"a"`s. -/
def c10StrActual : GoVal := mkStrSlice 9 ["a", "x"]

/-- See `c10StrActual`. -/
def c10StrExpected : GoVal := mkStrSlice 10 ["a", "a"]

/-!
## Theorems
-/

/-!
## Shared lemmas

General facts about the embedded engine used by several of the claim
theorems below.
-/

/-- An invalid actual value records a nil-pointer diagnostic against the
expected type. -/
theorem respectF_none_eq (c : Cmp) (rv : GoVal) (lvl : Nat) :
    respectF c none rv lvl = saveDiff c "<nil pointer>" (goTypeOf rv).str := by
  cases rv <;> rfl

set_option maxHeartbeats 1000000 in
/-- One-step unfolding of `respectF` for a valid actual value (stated by
hand; each case is definitional). -/
theorem respectF_some_eq (c : Cmp) (ov rv : GoVal) (lvl : Nat) :
    respectF c (some ov) rv lvl =
      (if goTypeOf ov ≠ goTypeOf rv then
        pop (if (goTypeOf rv).name = "" ∨ (goTypeOf rv).name ≠ (goTypeOf ov).name then
          saveDiff (push c "<type>") (goTypeOf ov).str (goTypeOf rv).str
        else
          saveDiff (push c "<type>") ((goTypeOf ov).pkgPath ++ "." ++ (goTypeOf ov).name)
            ((goTypeOf rv).pkgPath ++ "." ++ (goTypeOf rv).name))
      else if c.options &&& ZeroValueMatters = 0 ∧ isZero rv = true then c
      else
        match rv with
        | .vStruct _ rvFields =>
            match ov with
            | .vStruct _ objFields => respectStructLoop c objFields rvFields lvl
            | _ => c
        | .vMap rt raddr rnil rEntries =>
            match ov with
            | .vMap _ oaddr onil oEntries =>
                if rnil = false ∧ rEntries.length ≠ 0 then
                  let c1 :=
                    if onil = true then
                      saveDiff c "<nil map>" (goString (.vMap rt raddr rnil rEntries))
                    else c
                  if oaddr = raddr then c1
                  else respectMapLoop c1 oEntries rEntries lvl
                else c
            | _ => c
        | .vArray _ rElems =>
            match ov with
            | .vArray _ oElems => respectArrayLoop c oElems rElems 0 lvl
            | _ => c
        | .vSlice rt raddr rnil rElems =>
            match ov with
            | .vSlice _ oaddr onil oElems =>
                if rnil = false ∧ rElems.length ≠ 0 then
                  let c1 :=
                    if onil = true then
                      saveDiff c "<nil slice>" (goString (.vSlice rt raddr rnil rElems))
                    else c
                  if oElems.length = rElems.length ∧ oaddr = raddr then c1
                  else if oElems.length = rElems.length ∧ rElems.length = 0 then c1
                  else if oElems.length < rElems.length then
                    pop (saveDiffOp (push c1 "<len>") (toString oElems.length)
                      (toString rElems.length) "<")
                  else
                    sliceElementPhase
                      (if oElems.length ≠ rElems.length ∧ c1.options &&& LengthMatters ≠ 0 then
                        pop (saveDiffOp (push c1 "<len>") (toString oElems.length)
                          (toString rElems.length) ">")
                      else c1)
                      oElems rElems lvl
                else c
            | _ => c
        | .vPtr _ rp =>
            match rp with
            | none => c
            | some rpv =>
                match ov with
                | .vPtr _ op => respectF c op rpv (lvl + 1)
                | _ => c
        | .vFloat _ bq =>
            match ov with
            | .vFloat _ aq =>
                if fmtFixed FloatPrecision aq ≠ fmtFixed FloatPrecision bq then
                  saveDiff c (renderFloat aq) (renderFloat bq)
                else c
            | _ => c
        | .vBool _ bb =>
            match ov with
            | .vBool _ ab =>
                if ab ≠ bb then
                  saveDiff c (if ab then "true" else "false") (if bb then "true" else "false")
                else c
            | _ => c
        | .vInt _ bi =>
            match ov with
            | .vInt _ ai => if ai ≠ bi then saveDiff c (toString ai) (toString bi) else c
            | _ => c
        | .vUint _ bu =>
            match ov with
            | .vUint _ au => if au ≠ bu then saveDiff c (toString au) (toString bu) else c
            | _ => c
        | .vString _ sb =>
            match ov with
            | .vString _ sa => if sa ≠ sb then saveDiff c sa sb else c
            | _ => c) := by
  cases rv with
  | vPtr t p => cases p <;> rfl
  | _ => rfl

/-- Popping directly after a push restores the context. -/
theorem pop_push (c : Cmp) (s : String) : pop (push c s) = c := by
  simp [pop, push]

/-- A push, save, pop sequence appends exactly one entry rendered under the
extended path. -/
theorem pop_push_save (c : Cmp) (s m : String) :
    pop (save (push c s) m) = { c with diff := c.diff ++ [renderEntry (c.buff ++ [s]) m] } := by
  simp [pop, push, save]

/-- With distinct field names, `FieldByName` returns each declared field
value. -/
theorem fieldByName_mem (fields : List (String × Bool × GoVal))
    (hnd : (fields.map (fun f => f.1)).Nodup) :
    ∀ f ∈ fields, fieldByName fields f.1 = some f.2.2 := by
  induction fields with
  | nil => simp
  | cons hd tl ih =>
      obtain ⟨n, ex, v⟩ := hd
      simp only [List.map_cons, List.nodup_cons] at hnd
      obtain ⟨hnin, hnd2⟩ := hnd
      intro f hf
      rcases List.mem_cons.mp hf with heq | hmem
      · subst heq; simp [fieldByName]
      · have hne : ¬(n = f.1) := by
          intro hcontra
          exact hnin (by rw [hcontra]; exact List.mem_map_of_mem (fun g => g.1) hmem)
        rw [fieldByName, if_neg hne]
        exact ih hnd2 f hmem

/-- The struct-field loop is the identity when every expected field is found
at its own value and compares without a diagnostic. -/
theorem respectStructLoop_self (objFields : List (String × Bool × GoVal)) :
    ∀ (suffix : List (String × Bool × GoVal)) (c : Cmp) (lvl : Nat),
      (∀ f ∈ suffix, fieldByName objFields f.1 = some f.2.2) →
      (∀ f ∈ suffix, ∀ (c2 : Cmp) (lvl2 : Nat), respectF c2 (some f.2.2) f.2.2 lvl2 = c2) →
      respectStructLoop c objFields suffix lvl = c := by
  intro suffix
  induction suffix with
  | nil => intro c lvl h1 h2; rw [respectStructLoop]
  | cons hd tl ih =>
      intro c lvl h1 h2
      obtain ⟨n, ex, v⟩ := hd
      rw [respectStructLoop]
      by_cases hex : ex = false
      · rw [if_pos hex]
        exact ih c lvl (fun f hf => h1 f (List.mem_cons_of_mem _ hf))
          (fun f hf => h2 f (List.mem_cons_of_mem _ hf))
      · rw [if_neg hex]
        have hb : fieldByName objFields n = some v := h1 (n, ex, v) (List.mem_cons_self _ _)
        have hr : respectF (push c n) (some v) v (lvl + 1) = push c n :=
          h2 (n, ex, v) (List.mem_cons_self _ _) (push c n) (lvl + 1)
        simp only [hb, hr, pop_push]
        rw [ih c lvl (fun f hf => h1 f (List.mem_cons_of_mem _ hf))
          (fun f hf => h2 f (List.mem_cons_of_mem _ hf)), ite_self]

/-- The array loop is the identity when the actual side holds the same
elements at the same indices and each compares without a diagnostic. -/
theorem respectArrayLoop_self :
    ∀ (suffix oElems : List GoVal) (i : Nat) (c : Cmp) (lvl : Nat),
      (∀ k, k < suffix.length → oElems[i + k]? = suffix[k]?) →
      (∀ e ∈ suffix, ∀ (c2 : Cmp) (lvl2 : Nat), respectF c2 (some e) e lvl2 = c2) →
      respectArrayLoop c oElems suffix i lvl = c := by
  intro suffix
  induction suffix with
  | nil => intro oElems i c lvl h1 h2; rw [respectArrayLoop]
  | cons r tl ih =>
      intro oElems i c lvl h1 h2
      rw [respectArrayLoop]
      have h0 : oElems[i]? = some r := by
        have := h1 0 (by simp)
        simpa using this
      have hr : respectF (push c ("array[" ++ toString i ++ "]")) (some r) r (lvl + 1) =
          push c ("array[" ++ toString i ++ "]") :=
        h2 r (List.mem_cons_self _ _) _ (lvl + 1)
      simp only [h0, hr, pop_push]
      rw [ih oElems (i + 1) c lvl (fun k hk => by
            have := h1 (k + 1) (by simpa using Nat.succ_lt_succ hk)
            simpa [Nat.add_assoc, Nat.add_comm 1 k] using this)
          (fun e he => h2 e (List.mem_cons_of_mem _ he)), ite_self]

/-- Comparing a well-formed value against itself never changes the
comparison context. -/
theorem respectF_self (v : GoVal) (hwf : WfVal v) :
    ∀ (c : Cmp) (lvl : Nat), respectF c (some v) v lvl = c := by
  induction hwf with
  | bool t b =>
      intro c lvl
      rw [respectF_some_eq, if_neg (by simp)]
      simp
  | int t i =>
      intro c lvl
      rw [respectF_some_eq, if_neg (by simp)]
      simp
  | uint t u =>
      intro c lvl
      rw [respectF_some_eq, if_neg (by simp)]
      simp
  | float t q =>
      intro c lvl
      rw [respectF_some_eq, if_neg (by simp)]
      simp
  | str t s =>
      intro c lvl
      rw [respectF_some_eq, if_neg (by simp)]
      simp
  | struct t fields hnd hall ih =>
      intro c lvl
      rw [respectF_some_eq, if_neg (by simp)]
      have hloop : respectStructLoop c fields fields lvl = c :=
        respectStructLoop_self fields fields c lvl (fieldByName_mem fields hnd) ih
      simp [hloop]
  | ptr t p hall ih =>
      intro c lvl
      rw [respectF_some_eq, if_neg (by simp)]
      cases p with
      | none => simp
      | some pv =>
          have hr : respectF c (some pv) pv (lvl + 1) = c := ih pv (by simp) c (lvl + 1)
          simp [hr]
  | slice t a n elems hall ih =>
      intro c lvl
      rw [respectF_some_eq, if_neg (by simp)]
      by_cases hn : n = false ∧ elems.length ≠ 0
      · obtain ⟨hn1, hn2⟩ := hn
        subst hn1
        simp [hn2]
      · simp only []
        rw [if_neg hn, ite_self]
  | array t elems hall ih =>
      intro c lvl
      rw [respectF_some_eq, if_neg (by simp)]
      have hloop : respectArrayLoop c elems elems 0 lvl = c :=
        respectArrayLoop_self elems elems 0 c lvl (fun k hk => by simp) ih
      simp [hloop]
  | map t a n entries hall ih =>
      intro c lvl
      rw [respectF_some_eq, if_neg (by simp)]
      by_cases hn : n = false ∧ entries.length ≠ 0
      · obtain ⟨hn1, hn2⟩ := hn
        subst hn1
        simp [hn2]
      · simp only []
        rw [if_neg hn, ite_self]

/-!
## Claim theorems
-/

/-- C1.  Reflexivity: comparing any well-formed non-nil value against itself
under default options (no option flags) yields an empty difference list. -/
theorem respect_reflexive (x : GoVal) (hwf : WfVal x) :
    Respect (some x) (some x) [] = [] := by
  have h := respectF_self x hwf { diff := [], buff := [], options := 0 } 0
  simp only [Respect, List.foldl_nil]
  rw [h]

/-- Witness for C1 at a value containing scalar, pointer, slice and map
members. -/
theorem respect_reflexive_witness : Respect (some reflSample) (some reflSample) [] = [] := by
  apply respect_reflexive
  unfold reflSample
  refine WfVal.struct _ _ (by decide) ?_
  intro f hf
  simp only [List.mem_cons, List.not_mem_nil, or_false] at hf
  rcases hf with h | h | h | h | h <;> subst h
  · exact WfVal.str _ _
  · exact WfVal.int _ _
  · refine WfVal.ptr _ _ ?_
    intro v hv
    simp only [Option.mem_def, Option.some.injEq] at hv
    subst hv
    exact WfVal.str _ _
  · refine WfVal.slice _ _ _ _ ?_
    intro e he
    simp only [List.mem_cons, List.not_mem_nil, or_false] at he
    rcases he with h | h <;> subst h <;> exact WfVal.str _ _
  · refine WfVal.map _ _ _ _ ?_
    intro kv hkv
    simp only [List.mem_cons, List.not_mem_nil, or_false] at hkv
    subst hkv
    exact WfVal.str _ _

/-- Counterexample to C2 as stated: `Respect(v, nil)` is not empty for
non-nil `v` — the entry point records a `v != <nil pointer>` diagnostic. -/
theorem respect_expected_nil_counterexample :
    Respect (some (GoVal.vInt intT 1)) none [] ≠ [] := by decide

/-- C2 (amended).  Top-level nil handling: `Respect(nil, nil)` is empty;
`Respect(v, nil)` returns the single diagnostic `v != <nil pointer>` for
every non-nil `v`; `Respect(nil, v)` returns the single diagnostic
`<nil pointer> != v` (hence is non-empty) for every non-nil `v`.  All three
happen at the entry point, without entering the recursive comparator. -/
theorem respect_top_level_nil_handling :
    (∀ opts, Respect none none opts = []) ∧
    (∀ v opts, Respect (some v) none opts = [goString v ++ " != <nil pointer>"]) ∧
    (∀ v opts, Respect none (some v) opts = ["<nil pointer> != " ++ goString v]) := by
  refine ⟨fun opts => rfl, fun v opts => ?_, fun v opts => ?_⟩ <;>
    simp [Respect, saveDiff, saveDiffOp, save, renderEntry, String.append_assoc]

/-- C3.  Zero-value skipping: for same-typed values, when the exact
zero-value option is unset and the expected value is the zero value of its
type, the comparator returns with no diagnostic; concretely,
`respect({Name:"A",Age:3}, {Name:"",Age:3})` is empty under default options
and non-empty (on the `Name` field) once `ZeroValueMatters` is set. -/
theorem respect_zero_value_skipping :
    (∀ (c : Cmp) (ov rv : GoVal) (lvl : Nat),
        goTypeOf ov = goTypeOf rv → c.options &&& ZeroValueMatters = 0 → isZero rv = true →
        respectF c (some ov) rv lvl = c) ∧
    Respect (some (mkPerson "A" 3)) (some (mkPerson "" 3)) [] = [] ∧
    Respect (some (mkPerson "A" 3)) (some (mkPerson "" 3)) [ZeroValueMatters] =
      ["Name: A != "] := by
  refine ⟨?_, by decide, by decide⟩
  intro c ov rv lvl hty hopt hz
  have h1 : ¬(goTypeOf ov ≠ goTypeOf rv) := by simp [hty]
  rw [respectF_some_eq, if_neg h1, if_pos ⟨hopt, hz⟩]

/-- Witness for C3: a zero expected string against a non-zero actual leaves
the context untouched. -/
theorem respect_zero_value_skipping_witness :
    respectF { diff := [], buff := [], options := 0 } (some (GoVal.vString stringT "A"))
      (GoVal.vString stringT "") 0 = { diff := [], buff := [], options := 0 } :=
  respect_zero_value_skipping.1 { diff := [], buff := [], options := 0 }
    (GoVal.vString stringT "A") (GoVal.vString stringT "") 0 rfl rfl (by decide)

/-- C4 (failing input).  Same-length string slices with no common element:
the unordered string matcher has no `MaxDiff` check, so eleven not-found
diagnostics are returned — one more than `MaxDiff`, contradicting the
documented cap. -/
theorem respect_max_diff_cap_exceeded :
    (Respect (some c4Actual) (some c4Expected) []).length = MaxDiff + 1 := by decide

/-- Counterexample to C5 as stated: a nil actual slice against a non-empty
expected slice records two diagnostics (the nil-slice one and then a length
one), not a single diagnostic. -/
theorem respect_nil_slice_single_diagnostic_counterexample :
    Respect (some nilStrSlice) (some (mkStrSlice 3 ["a"])) [] =
      ["<nil slice> != [a]", "<len>: 0 < 1"] := by decide

/-- C5 (amended).  When the expected slice is non-nil and non-empty and the
actual slice is nil, the comparator records the nil-slice diagnostic, then
falls through to the length check, additionally records `0 < ne`, and stops
there. -/
theorem respect_nil_slice_diagnostics :
    ∀ (c : Cmp) (t : TypeId) (oaddr raddr : Nat) (rElems : List GoVal) (lvl : Nat),
      rElems ≠ [] →
      respectF c (some (GoVal.vSlice t oaddr true [])) (GoVal.vSlice t raddr false rElems) lvl =
        { c with diff := c.diff ++
            [renderEntry c.buff ("<nil slice> != " ++ goString (GoVal.vSlice t raddr false rElems)),
             renderEntry (c.buff ++ ["<len>"]) ("0 < " ++ toString rElems.length)] } := by
  intro c t oaddr raddr rElems lvl h
  have hpos : 0 < rElems.length := List.length_pos.mpr h
  have h0 : ¬(0 = rElems.length) := by omega
  have hne : ¬(rElems.length = 0) := by omega
  have h3 : toString (0 : Nat) = "0" := rfl
  rw [respectF_some_eq]
  rw [if_neg (by simp [goTypeOf])]
  rw [if_neg (by simp [isZero])]
  simp [goTypeOf, isZero, h0, hne, h3, hpos, saveDiff, saveDiffOp, save, pop, push, renderEntry,
    String.append_assoc]

/-- Witness for C5. -/
theorem respect_nil_slice_diagnostics_witness :
    respectF { diff := [], buff := [], options := 0 } (some (GoVal.vSlice strSliceT 0 true []))
      (GoVal.vSlice strSliceT 7 false [GoVal.vString stringT "a"]) 0 =
      { diff := ["<nil slice> != [a]", "<len>: 0 < 1"], buff := [], options := 0 } := by
  rw [respect_nil_slice_diagnostics { diff := [], buff := [], options := 0 } strSliceT 0 7
    [GoVal.vString stringT "a"] 0 (List.cons_ne_nil _ _)]
  decide

/-- Counterexample to C6 as stated: the identifier scan does not restrict
itself to visible fields.  Here every field of every expected element is
unexported, so by the claim no valid identifier should exist and the
no-identifier diagnostic should be recorded; the code instead derives the
identifier from the unexported non-zero string field (second conjunct) and
returns an empty difference list. -/
theorem respect_unordered_identifier_visibility_counterexample :
    Respect (some c6Actual) (some c6Expected) [] = [] ∧
    identFieldNames [("name", false, GoVal.vString stringT "a")] = ["name"] ∧
    ([("name", false, GoVal.vString stringT "a")].all (fun f => !f.2.1)) = true :=
  ⟨by decide, by decide, by decide⟩

/-- C6 (amended).  Unordered struct-element correlation: after the length
checks, an equal-length non-identical slice pair enters the element phase
(first conjunct); the identifier field set is computed once, from the first
expected element, taking every field — exported or not — whose dereferenced
kind is string and whose value on that first element is non-zero (third
conjunct shows unexported fields are included); if that set is empty the
no-identifier diagnostic is recorded and the whole unordered match stops
(second conjunct); otherwise an expected element whose identifier matches no
actual element produces a not-found diagnostic naming the identifier (fourth
conjunct). -/
theorem respect_unordered_identifier_correlation :
    (∀ (c : Cmp) (t : TypeId) (oaddr raddr : Nat) (oElems rElems : List GoVal) (lvl : Nat),
        oElems.length = rElems.length → oaddr ≠ raddr → rElems ≠ [] →
        respectF c (some (GoVal.vSlice t oaddr false oElems)) (GoVal.vSlice t raddr false rElems)
          lvl = sliceElementPhase c oElems rElems lvl) ∧
    (∀ (c : Cmp) (oElems : List GoVal) (r0 : GoVal) (rest : List GoVal) (lvl : Nat)
        (t0 : TypeId) (r0Fields : List (String × Bool × GoVal)),
        c.options &&& OrderMatters = 0 →
        ¬((r0 :: rest).length ≤ 1 ∧ oElems.length = 1) →
        valueType (some r0) = some (GoVal.vStruct t0 r0Fields) →
        identFieldNames r0Fields = [] →
        sliceElementPhase c oElems (r0 :: rest) lvl =
          { c with diff := c.diff ++
              [renderEntry c.buff "<non valid field identifier was found>"] }) ∧
    (∀ (n : String) (v : GoVal) (rest : List (String × Bool × GoVal)),
        isZero v = false → isStringKind (valueType (some v)) = true →
        identFieldNames ((n, false, v) :: rest) = n :: identFieldNames rest) ∧
    Respect (some c6bActual) (some c6bExpected) [] = ["[1].Key: <not found> != c"] := by
  refine ⟨?_, ?_, ?_, by decide⟩
  · intro c t oaddr raddr oElems rElems lvl heq haddr h
    have hpos : 0 < rElems.length := List.length_pos.mpr h
    have hne : ¬(rElems.length = 0) := by omega
    rw [respectF_some_eq]
    rw [if_neg (by simp [goTypeOf])]
    rw [if_neg (by simp [isZero])]
    simp [hne, heq, haddr]
  · intro c oElems r0 rest lvl t0 r0Fields hOM hnp hvt hid
    rw [sliceElementPhase]
    rw [if_neg (by
      rintro (h1 | h2)
      · exact h1 hOM
      · exact hnp h2)]
    simp only [List.head?_cons, hvt, hid]
    simp [save]
  · intro n v rest h1 h2
    simp [identFieldNames, h1, h2]

/-- Witness for C6: the no-identifier stop at a struct type with no string
field, and the identifier contribution of an unexported string field. -/
theorem respect_unordered_identifier_correlation_witness :
    sliceElementPhase { diff := [], buff := [], options := 0 } [mkNum 5] [mkNum 1, mkNum 2] 0 =
      { diff := ["<non valid field identifier was found>"], buff := [], options := 0 } ∧
    identFieldNames [("name", false, GoVal.vString stringT "a")] = ["name"] := by
  constructor
  · rw [respect_unordered_identifier_correlation.2.1 { diff := [], buff := [], options := 0 }
      [mkNum 5] (mkNum 1) [mkNum 2] 0 numT [("Num", true, GoVal.vInt intT 1)]
      (by decide) (by decide) rfl (by decide)]
    decide
  · rw [respect_unordered_identifier_correlation.2.2.1 "name" (GoVal.vString stringT "a") []
      (by decide) (by decide)]
    decide

/-- C7.  Length policies: when the actual slice is longer than the non-empty
expected slice and `LengthMatters` is set, the `na > ne` diagnostic is
recorded under the synthetic `<len>` segment and element comparison still
continues (the result is the element phase applied after the complaint);
when the actual slice is shorter, the `na < ne` diagnostic is recorded and
the sequence comparison stops, with no option hypothesis. -/
theorem respect_slice_length_policy :
    (∀ (c : Cmp) (t : TypeId) (oaddr raddr : Nat) (oElems rElems : List GoVal) (lvl : Nat),
        rElems ≠ [] → rElems.length < oElems.length → c.options &&& LengthMatters ≠ 0 →
        respectF c (some (GoVal.vSlice t oaddr false oElems)) (GoVal.vSlice t raddr false rElems)
          lvl =
          sliceElementPhase
            { c with diff := c.diff ++
                [renderEntry (c.buff ++ ["<len>"])
                  (toString oElems.length ++ " > " ++ toString rElems.length)] }
            oElems rElems lvl) ∧
    (∀ (c : Cmp) (t : TypeId) (oaddr raddr : Nat) (oElems rElems : List GoVal) (lvl : Nat),
        oElems.length < rElems.length →
        respectF c (some (GoVal.vSlice t oaddr false oElems)) (GoVal.vSlice t raddr false rElems)
          lvl =
          { c with diff := c.diff ++
              [renderEntry (c.buff ++ ["<len>"])
                (toString oElems.length ++ " < " ++ toString rElems.length)] }) := by
  constructor
  · intro c t oaddr raddr oElems rElems lvl h hgt hlm
    have hpos : 0 < rElems.length := List.length_pos.mpr h
    have hne : ¬(rElems.length = 0) := by omega
    have hne2 : ¬(oElems.length = rElems.length) := by omega
    have hnlt : ¬(oElems.length < rElems.length) := by omega
    rw [respectF_some_eq]
    rw [if_neg (by simp [goTypeOf])]
    rw [if_neg (by simp [isZero])]
    simp [hne, hne2, hnlt, hlm, saveDiff, saveDiffOp, save, pop, push, renderEntry,
      String.append_assoc]
  · intro c t oaddr raddr oElems rElems lvl hlt
    have hne : ¬(rElems.length = 0) := by omega
    have hne2 : ¬(oElems.length = rElems.length) := by omega
    rw [respectF_some_eq]
    rw [if_neg (by simp [goTypeOf])]
    rw [if_neg (by simp [isZero])]
    simp [hne, hne2, hlt, saveDiff, saveDiffOp, save, pop, push, renderEntry, String.append_assoc]

/-- Witness for C7: a longer actual with `LengthMatters` records the length
complaint and still reports the missing element; a shorter actual records
only the length diagnostic. -/
theorem respect_slice_length_policy_witness :
    respectF { diff := [], buff := [], options := LengthMatters }
      (some (GoVal.vSlice strSliceT 21 false
        [GoVal.vString stringT "a", GoVal.vString stringT "b", GoVal.vString stringT "c"]))
      (GoVal.vSlice strSliceT 22 false [GoVal.vString stringT "z"]) 0 =
      { diff := ["<len>: 3 > 1", "item: <not found> != z"], buff := [],
        options := LengthMatters } ∧
    respectF { diff := [], buff := [], options := 0 }
      (some (GoVal.vSlice strSliceT 23 false [GoVal.vString stringT "a"]))
      (GoVal.vSlice strSliceT 24 false
        [GoVal.vString stringT "a", GoVal.vString stringT "b"]) 0 =
      { diff := ["<len>: 1 < 2"], buff := [], options := 0 } := by
  constructor
  · rw [respect_slice_length_policy.1 { diff := [], buff := [], options := LengthMatters }
      strSliceT 21 22
      [GoVal.vString stringT "a", GoVal.vString stringT "b", GoVal.vString stringT "c"]
      [GoVal.vString stringT "z"] 0 (List.cons_ne_nil _ _) (by decide) (by decide)]
    decide
  · rw [respect_slice_length_policy.2 { diff := [], buff := [], options := 0 } strSliceT 23 24
      [GoVal.vString stringT "a"]
      [GoVal.vString stringT "a", GoVal.vString stringT "b"] 0 (by decide)]
    decide

/-- C8.  Type identity: values of different concrete types produce exactly
one type-mismatch diagnostic under the synthetic `<type>` segment and the
comparison of the pair returns immediately; when the short names collide and
are non-empty the message uses the package-qualified names of both types, so
same-named types from different packages never respect each other even with
identical field values (third conjunct). -/
theorem respect_type_mismatch_diagnostic :
    (∀ (c : Cmp) (ov rv : GoVal) (lvl : Nat), goTypeOf ov ≠ goTypeOf rv →
        respectF c (some ov) rv lvl =
          { c with diff := c.diff ++
              [renderEntry (c.buff ++ ["<type>"])
                (typeMismatchMsg (goTypeOf ov) (goTypeOf rv))] }) ∧
    (∀ t1 t2 : TypeId, t1.name = t2.name → t2.name ≠ "" →
        typeMismatchMsg t1 t2 =
          (t1.pkgPath ++ "." ++ t1.name) ++ " != " ++ (t2.pkgPath ++ "." ++ t2.name)) ∧
    Respect (some errV1Val) (some errV2Val) [] = ["<type>: pkg/v1.Error != pkg/v2.Error"] := by
  refine ⟨?_, ?_, by decide⟩
  · intro c ov rv lvl h
    rw [respectF_some_eq, if_pos h]
    by_cases hm : (goTypeOf rv).name = "" ∨ (goTypeOf rv).name ≠ (goTypeOf ov).name
    · rw [if_pos hm, saveDiff, saveDiffOp, pop_push_save, typeMismatchMsg, if_pos hm]
      simp [String.append_assoc]
    · rw [if_neg hm, saveDiff, saveDiffOp, pop_push_save, typeMismatchMsg, if_neg hm]
      simp [String.append_assoc]
  · intro t1 t2 h1 h2
    rw [typeMismatchMsg, if_neg (by
      rintro (h | h)
      · exact h2 h
      · exact h h1.symm)]

/-- Witness for C8. -/
theorem respect_type_mismatch_diagnostic_witness :
    respectF { diff := [], buff := [], options := 0 } (some (GoVal.vInt intT 0))
      (GoVal.vString stringT "x") 0 =
      { diff := ["<type>: int != string"], buff := [], options := 0 } ∧
    typeMismatchMsg errV1T errV2T = "pkg/v1.Error != pkg/v2.Error" := by
  constructor
  · rw [respect_type_mismatch_diagnostic.1 { diff := [], buff := [], options := 0 }
      (GoVal.vInt intT 0) (GoVal.vString stringT "x") 0 (by decide)]
    decide
  · rw [respect_type_mismatch_diagnostic.2.1 errV1T errV2T rfl (by decide)]
    decide

/-- Counterexample to C9 as stated: the float rule is not applied to every
pair of float values — a zero expected float under default options is
skipped by the zero-value policy, so `Respect(5.0, 0.0)` is empty although
the two fixed-point renderings differ. -/
theorem respect_float_zero_expected_counterexample :
    Respect (some (GoVal.vFloat f64T (mkRat 5 1))) (some (GoVal.vFloat f64T (mkRat 0 1))) [] =
      [] ∧
    fmtFixed FloatPrecision (mkRat 5 1) ≠ fmtFixed FloatPrecision (mkRat 0 1) :=
  ⟨by decide, by decide⟩

/-- C9 (amended).  Floating-point tolerance, for comparisons the zero-value
policy does not skip (exact zero-value option set or expected non-zero): both
sides are rendered with the same fixed-point format at `FloatPrecision` (10)
digits and the rendered strings are compared; equal renderings yield no
diagnostic and a mismatch records the raw unrounded values (first conjunct).
Concretely `2.40000000001` rounds to the same string as `2.4` and respects
it, while a difference at the 9th decimal digit renders differently and is
reported with the raw values. -/
theorem respect_float_precision_comparison :
    (∀ (c : Cmp) (t : TypeId) (q1 q2 : ℚ) (lvl : Nat),
        c.options &&& ZeroValueMatters ≠ 0 ∨ q2 ≠ 0 →
        respectF c (some (GoVal.vFloat t q1)) (GoVal.vFloat t q2) lvl =
          if fmtFixed FloatPrecision q1 = fmtFixed FloatPrecision q2 then c
          else { c with diff := c.diff ++
              [renderEntry c.buff (renderFloat q1 ++ " != " ++ renderFloat q2)] }) ∧
    fmtFixed FloatPrecision (mkRat 240000000001 100000000000) =
      fmtFixed FloatPrecision (mkRat 24 10) ∧
    fmtFixed FloatPrecision (mkRat 2400000001 1000000000) ≠
      fmtFixed FloatPrecision (mkRat 24 10) ∧
    Respect (some (GoVal.vFloat f64T (mkRat 240000000001 100000000000)))
      (some (GoVal.vFloat f64T (mkRat 24 10))) [] = [] ∧
    Respect (some (GoVal.vFloat f64T (mkRat 2400000001 1000000000)))
      (some (GoVal.vFloat f64T (mkRat 24 10))) [] = ["2.400000001 != 2.4"] := by
  refine ⟨?_, by decide, by decide, by decide, by decide⟩
  intro c t q1 q2 lvl hz
  rw [respectF_some_eq]
  rw [if_neg (by simp [goTypeOf])]
  rw [if_neg (by
    simp only [isZero, not_and, decide_eq_true_eq]
    intro hzv
    rcases hz with h1 | h2
    · exact absurd hzv h1
    · simp [h2])]
  by_cases hf : fmtFixed FloatPrecision q1 = fmtFixed FloatPrecision q2
  · simp [hf]
  · simp [hf, saveDiff, saveDiffOp, save, renderEntry, String.append_assoc]

/-- Witness for C9. -/
theorem respect_float_precision_comparison_witness :
    respectF { diff := [], buff := [], options := 0 }
      (some (GoVal.vFloat f64T (mkRat 2400000001 1000000000)))
      (GoVal.vFloat f64T (mkRat 24 10)) 0 =
      { diff := ["2.400000001 != 2.4"], buff := [], options := 0 } := by
  rw [respect_float_precision_comparison.1 { diff := [], buff := [], options := 0 } f64T
    (mkRat 2400000001 1000000000) (mkRat 24 10) 0 (Or.inr (by decide))]
  decide

/-- C10.  Consumption contrast in unordered matching.  Struct elements: both
expected elements carry the identifier `"k"`; a perfect pairing with the
actual elements exists, yet the second expected element is compared against
the first actual element again (matched elements are not consumed), producing
the `[1].Num: 1 != 2` diagnostic.  String elements: the matched actual
`"a"` is consumed, so the second expected `"a"` finds no match and a
not-found diagnostic is recorded even though a non-consuming matcher would
accept. -/
theorem respect_unordered_consumption_contrast :
    Respect (some c10ItemsActual) (some c10ItemsExpected) [] = ["[1].Num: 1 != 2"] ∧
    Respect (some c10StrActual) (some c10StrExpected) [] = ["item: <not found> != a"] :=
  ⟨by decide, by decide⟩

end respect
